import Mathlib

/-!
Shallow embedding of the RustDbg breakpoint engine and command dispatcher
(src/working.rs and src/main.rs), together with proofs about its breakpoint
bookkeeping, trap handling and command-line parsing.

Machine integers are modelled as `Nat` with explicit reduction modulo `2^64`
(`u64` words) and `% 256` (`u8` bytes) where the Rust code casts or masks.
Fallible ptrace calls return `Option`; a Rust `panic!`/`.expect` failure is
modelled as the `none` / `.panicked` outcome of the surrounding function.
-/

namespace RustDbg

/-- `2^64`, the modulus of `u64` arithmetic. -/
def wordMod : Nat := 2 ^ 64

/-- The x86-64 general-purpose register file as read by `ptrace::getregs`
(the fields of `user_regs_struct` that `working.rs` and `main.rs` use). -/
structure Regs where
  rax : Nat
  rbx : Nat
  rcx : Nat
  rdx : Nat
  rsi : Nat
  rdi : Nat
  rsp : Nat
  rip : Nat
  rbp : Nat
  r8 : Nat
  r9 : Nat
  r10 : Nat
  r11 : Nat
  r12 : Nat
  r13 : Nat
  r14 : Nat
  r15 : Nat
  orig_rax : Nat
  deriving DecidableEq, Repr

/-- Tracee memory as seen through `ptrace::read` / `ptrace::write`: the 64-bit
word stored at each byte address, plus per-address success of the two calls
(each ptrace access is independently fallible: `read` and `write` both return
`Result` in the Rust code). -/
structure Mem where
  val : Nat → Nat
  readable : Nat → Bool
  writable : Nat → Bool

/-- `ptrace::read(child, address)`: the 64-bit word at `address`, or failure. -/
def ptraceRead (m : Mem) (a : Nat) : Option Nat :=
  if m.readable a then some (m.val a % wordMod) else none

/-- `ptrace::write(child, address, v)`: store a 64-bit word, or failure. -/
def ptraceWrite (m : Mem) (a v : Nat) : Option Mem :=
  if m.writable a then
    some { m with val := fun x => if x = a then v % wordMod else m.val x }
  else none

/-- Association list modelling `HashMap<u64, u8>`: `get(&a)`. -/
def bpLookup : List (Nat × Nat) → Nat → Option Nat
  | [], _ => none
  | (k, v) :: rest, a => if k = a then some v else bpLookup rest a

/-- Association list modelling `HashMap<u64, u8>`: `insert(a, v)` replaces any
existing binding of `a` (keys stay unique). -/
def bpInsert : List (Nat × Nat) → Nat → Nat → List (Nat × Nat)
  | [], a, v => [(a, v)]
  | (k, w) :: rest, a, v =>
    if k = a then (a, v) :: rest else (k, w) :: bpInsert rest a v

/-- Debugger-visible tracee state: memory, the global `BREAKPOINTS` table
(`Option` mirrors the `static mut BREAKPOINTS: Option<HashMap<..>>`), and the
result `ptrace::getregs` would currently return (`none` when the tracee is not
in a state where its registers can be read). -/
structure DbgState where
  mem : Mem
  breakpoints : Option (List (Nat × Nat))
  regs : Option Regs

/-- `(w & !0xff) | 0xcc` on a 64-bit word `w`: clear the low byte, set `0xcc`.
Since the low byte is cleared first and `0xcc < 256`, the bitwise-or is plain
addition. -/
def patchTrap (w : Nat) : Nat := w / 256 * 256 + 0xcc

/-- `(w & !0xff) | (b as i64)` for a `u8` value `b`: clear the low byte of the
word and put `b` there (`b % 256` records that `b` has `u8` range). -/
def restoreLow (w b : Nat) : Nat := w / 256 * 256 + b % 256

/-- `working.rs::set_breakpoint`: read the word at `address`; on success insert
`(address, low byte)` into the global table (creating the table if absent), and
only then attempt to write the word with its low byte replaced by the trap
opcode `0xcc`. Returns the state after the call and whether it returned `Ok`.
A failed read returns early (`?`) before the insert; a failed write returns
early (`?`) after it. -/
def set_breakpoint (s : DbgState) (address : Nat) : DbgState × Bool :=
  match ptraceRead s.mem address with
  | none => (s, false)
  | some original_word =>
    let s1 : DbgState :=
      match s.breakpoints with
      | some bps =>
        { s with breakpoints := some (bpInsert bps address (original_word % 256)) }
      | none =>
        { s with breakpoints := some [(address, original_word % 256)] }
    match ptraceWrite s1.mem address (patchTrap original_word) with
    | none => (s1, false)
    | some m2 => ({ s1 with mem := m2 }, true)

/-- What `handle_breakpoint` prints before returning. -/
inductive Report where
  | hit (a : Nat)
  | unknown (a : Nat)
  deriving DecidableEq, Repr

/-- `working.rs::handle_breakpoint`: look `address` up in the global table; if
present, read the current word (`.expect` → `none` on failure), put the
recorded original byte back into its low byte, write it back (`.expect` →
`none` on failure) and report a hit; otherwise report an unknown breakpoint.
The table entry is left in place in every case. -/
def handle_breakpoint (s : DbgState) (address : Nat) :
    Option (DbgState × Report) :=
  match s.breakpoints with
  | some bps =>
    match bpLookup bps address with
    | some original_byte =>
      match ptraceRead s.mem address with
      | none => none
      | some w =>
        match ptraceWrite s.mem address (restoreLow w original_byte) with
        | none => none
        | some m2 => some ({ s with mem := m2 }, .hit address)
    | none => some (s, .unknown address)
  | none => some (s, .unknown address)

/-- One `waitpid(child, None)` result, as `prettier` discriminates them:
`Ok(Stopped(child, SIGTRAP))` (with the `rip` that `getregs` then yields),
any other `Ok` status, `Err(ECHILD)`, or any other `Err`. -/
inductive WaitEvent where
  | okTrap (rip : Nat)
  | okOther
  | errEchild
  | errOther
  deriving DecidableEq, Repr

/-- How `prettier`'s wait loop ended. -/
inductive PrettierResult where
  | trapHandled (r : Report)
  | exitedZero
  | errorBreak
  | blockedForever
  | panicked
  deriving DecidableEq, Repr

/-- Result of running `prettier`: final state, how the loop ended, and how many
`waitpid` calls were issued. -/
structure PrettierRun where
  state : DbgState
  result : PrettierResult
  waits : Nat

/-- `rip - 1` in wrapping `u64` arithmetic (for `1 ≤ rip < 2^64` this is the
ordinary `rip - 1`). -/
def sub1 (rip : Nat) : Nat := (rip + (wordMod - 1)) % wordMod

/-- `working.rs::prettier`: loop on `waitpid`. A `Stopped(child, SIGTRAP)`
status prints `SIGTRAP`, reads `rip` and calls `handle_breakpoint` at
`rip - 1`, then breaks; any other `Ok` status loops; `Err(ECHILD)` prints the
termination notice and exits the whole process with status 0; any other `Err`
prints the error and breaks. An exhausted event list models a `waitpid` that
never returns. -/
def prettier (s : DbgState) : List WaitEvent → PrettierRun
  | [] => ⟨s, .blockedForever, 0⟩
  | .okTrap rip :: _ =>
    match handle_breakpoint s (sub1 rip) with
    | none => ⟨s, .panicked, 1⟩
    | some (s2, r) => ⟨s2, .trapHandled r, 1⟩
  | .okOther :: rest =>
    let p := prettier s rest
    ⟨p.state, p.result, p.waits + 1⟩
  | .errEchild :: _ => ⟨s, .exitedZero, 1⟩
  | .errOther :: _ => ⟨s, .errorBreak, 1⟩

/-- `working.rs::show_registers`: `getregs` then print the register dump;
`.expect` aborts (`none`) when the registers cannot be read. -/
def show_registers (s : DbgState) : Option Regs :=
  match s.regs with
  | none => none
  | some r => some r

/-- The lines `run_command` (and the functions it calls) can print, one
constructor per distinct `println!`/`eprintln!` in the source. -/
inductive Msg where
  | continuing
  | contFailed
  | sigtrap
  | hitBp (a : Nat)
  | unknownBp (a : Nat)
  | childTerminated
  | waitError
  | takingStep
  | stepFailed
  | showingRegs
  | registersDump (r : Regs)
  | usageMemory
  | usageBreakpoint
  | addrNeeds0x
  | invalidAddress
  | memContent (v : Nat)
  | memReadFailed
  | bpSetFailed
  | enteringSyscall (rax : Nat)
  | syscallWaitFailed
  | getregsFailed
  | syscallResumeFailed
  | helpText
  | exiting
  | unknownCommand (s : String)
  deriving DecidableEq, Repr

/-- How a `run_command` invocation ended: returned to the REPL, called
`std::process::exit(0)`, blocked forever in a wait, or aborted in a panic. -/
inductive CmdOutcome where
  | ok
  | exit0
  | blocked
  | panicked
  deriving DecidableEq, Repr

/-- Environment oracle for the fallible ptrace requests `run_command` issues:
whether `ptrace::cont` / `ptrace::step` / `ptrace::syscall` reach the kernel,
and the stream of results future `waitpid` calls will produce. -/
structure Os where
  contOk : Bool
  stepOk : Bool
  syscallOk : Bool
  events : List WaitEvent

/-- Result of one `run_command` call: tracee state afterwards, the lines
printed, how the call ended, and how many `waitpid` calls it made. -/
structure RunResult where
  state : DbgState
  msgs : List Msg
  outcome : CmdOutcome
  waits : Nat

/-- Helper for `split_whitespace`: walk the characters, `acc` holding the
current token reversed. -/
def splitWSAux : List Char → List Char → List String
  | [], [] => []
  | [], acc => [String.mk acc.reverse]
  | c :: cs, acc =>
    if c.isWhitespace then
      match acc with
      | [] => splitWSAux cs []
      | _ => String.mk acc.reverse :: splitWSAux cs []
    else splitWSAux cs (c :: acc)

/-- `command.split_whitespace()`: the maximal runs of non-whitespace
characters, in order. -/
def split_whitespace (s : String) : List String := splitWSAux s.data []

/-- `hex_address.starts_with("0x")`. -/
def startsWith0x (s : String) : Bool :=
  match s.data with
  | '0' :: 'x' :: _ => true
  | _ => false

/-- `&hex_address[2..]`: drop the two-byte (ASCII) `0x` prefix. -/
def drop2 (s : String) : String := String.mk (s.data.drop 2)

/-- Value of one hex digit, upper or lower case. -/
def hexDigit (c : Char) : Option Nat :=
  if '0' ≤ c ∧ c ≤ '9' then some (c.toNat - '0'.toNat)
  else if 'a' ≤ c ∧ c ≤ 'f' then some (c.toNat - 'a'.toNat + 10)
  else if 'A' ≤ c ∧ c ≤ 'F' then some (c.toNat - 'A'.toNat + 10)
  else none

/-- Accumulate base-16 digits with the checked arithmetic of
`u64::from_str_radix`: any non-digit or any intermediate value outside `u64`
range fails. An empty digit list here means the (possibly sign-stripped)
input had no digits, which `from_str_radix` rejects — callers handle that. -/
def hexAccum : List Char → Nat → Option Nat
  | [], acc => some acc
  | c :: cs, acc =>
    match hexDigit c with
    | none => none
    | some d =>
      if acc * 16 + d < wordMod then hexAccum cs (acc * 16 + d) else none

/-- `u64::from_str_radix(s, 16)`: an optional leading `+` (a lone sign or an
empty string is an error; `-` is not accepted for an unsigned type and fails
as a non-digit) followed by one or more hex digits, with the value checked to
fit in 64 bits. -/
def from_str_radix16 (s : String) : Option Nat :=
  match s.data with
  | [] => none
  | ['+'] => none
  | '+' :: rest => hexAccum rest 0
  | cs => hexAccum cs 0

/-- The messages `run_command`'s continue arm prints for a `prettier` outcome:
`SIGTRAP` plus the hit/unknown line on a trap, the termination notice on
`ECHILD`, the error line otherwise. -/
def prettierMsgs : PrettierResult → List Msg
  | .trapHandled (.hit a) => [.sigtrap, .hitBp a]
  | .trapHandled (.unknown a) => [.sigtrap, .unknownBp a]
  | .exitedZero => [.childTerminated]
  | .errorBreak => [.waitError]
  | .blockedForever => []
  | .panicked => [.sigtrap]

/-- `CmdOutcome` of the continue arm for a `prettier` outcome: `ECHILD` exits
the process with status 0, a handled trap or an error returns to the REPL. -/
def prettierOutcome : PrettierResult → CmdOutcome
  | .trapHandled _ => .ok
  | .exitedZero => .exit0
  | .errorBreak => .ok
  | .blockedForever => .blocked
  | .panicked => .panicked

/-- The `m`/`memory` arm of `run_command`: exactly one argument, `0x` prefix,
`u64::from_str_radix(_, 16)` on the rest; each failure prints its message and
returns; a well-formed address is read with `ptrace::read` and printed. The
tracee state is never modified. -/
def memory_command (args : List String) (s : DbgState) : RunResult :=
  if args.length ≠ 2 then ⟨s, [.usageMemory], .ok, 0⟩
  else
    let hex := args.getD 1 ""
    if ¬ startsWith0x hex then ⟨s, [.addrNeeds0x], .ok, 0⟩
    else
      match from_str_radix16 (drop2 hex) with
      | some address =>
        match ptraceRead s.mem address with
        | some v => ⟨s, [.memContent v], .ok, 0⟩
        | none => ⟨s, [.memReadFailed], .ok, 0⟩
      | none => ⟨s, [.invalidAddress], .ok, 0⟩

/-- The `b`/`breakpoint` arm of `run_command`: same argument validation as
`memory_command`; a well-formed address goes to `set_breakpoint`, whose `Err`
prints a failure line (and whose `Ok` prints nothing). -/
def breakpoint_command (args : List String) (s : DbgState) : RunResult :=
  if args.length ≠ 2 then ⟨s, [.usageBreakpoint], .ok, 0⟩
  else
    let hex := args.getD 1 ""
    if ¬ startsWith0x hex then ⟨s, [.addrNeeds0x], .ok, 0⟩
    else
      match from_str_radix16 (drop2 hex) with
      | some address =>
        match set_breakpoint s address with
        | (s2, true) => ⟨s2, [], .ok, 0⟩
        | (s2, false) => ⟨s2, [.bpSetFailed], .ok, 0⟩
      | none => ⟨s, [.invalidAddress], .ok, 0⟩

/-- `main.rs::run_command` after the `split_whitespace`: dispatch on the first
token exactly as the Rust `match` does. -/
def dispatch (args : List String) (command : String) (os : Os)
    (s : DbgState) : RunResult :=
  match args.head? with
  | some "c" | some "continue" =>
    if os.contOk then
      let p := prettier s os.events
      ⟨p.state, .continuing :: prettierMsgs p.result, prettierOutcome p.result,
        p.waits⟩
    else ⟨s, [.continuing, .contFailed], .ok, 0⟩
  | some "s" | some "syscall" =>
    match os.events.head? with
    | none => ⟨s, [], .blocked, 1⟩
    | some .errEchild => ⟨s, [.syscallWaitFailed], .ok, 1⟩
    | some .errOther => ⟨s, [.syscallWaitFailed], .ok, 1⟩
    | some _ =>
      match s.regs with
      | none => ⟨s, [.getregsFailed], .ok, 1⟩
      | some r =>
        if os.syscallOk then ⟨s, [.enteringSyscall r.orig_rax], .ok, 1⟩
        else ⟨s, [.enteringSyscall r.orig_rax, .syscallResumeFailed], .ok, 1⟩
  | some "n" | some "next" =>
    if os.stepOk then ⟨s, [.takingStep], .ok, 0⟩
    else ⟨s, [.takingStep, .stepFailed], .ok, 0⟩
  | some "r" | some "registers" =>
    match show_registers s with
    | none => ⟨s, [.showingRegs], .panicked, 0⟩
    | some r => ⟨s, [.showingRegs, .registersDump r], .ok, 0⟩
  | some "m" | some "memory" => memory_command args s
  | some "b" | some "breakpoint" => breakpoint_command args s
  | some "h" | some "help" => ⟨s, [.helpText], .ok, 0⟩
  | some "q" | some "quit" => ⟨s, [.exiting], .exit0, 0⟩
  | _ => ⟨s, [.unknownCommand command], .ok, 0⟩

/-- `main.rs::run_command`: `let args: Vec<&str> = command.split_whitespace()
.collect()` followed by the dispatch above. -/
def run_command (command : String) (os : Os) (s : DbgState) : RunResult :=
  dispatch (split_whitespace command) command os s

/-! Concrete sample states used to instantiate the theorems below. -/

/-- Memory holding the word `w` at every address, all accesses succeeding. -/
def memRW (w : Nat) : Mem := ⟨fun _ => w, fun _ => true, fun _ => true⟩

/-- Memory holding the word `w` at every address, readable but not writable. -/
def memRO (w : Nat) : Mem := ⟨fun _ => w, fun _ => true, fun _ => false⟩

/-- A register file with `rip` just past a trap at `0x401000`. -/
def sampleRegs : Regs := ⟨0, 0, 0, 0, 0, 0, 0, 0x401001, 0, 0, 0, 0, 0, 0, 0, 0, 0, 0⟩

/-- Freshly attached tracee: benign memory, no breakpoint table yet. -/
def sampleState : DbgState := ⟨memRW 0x1122334455667755, none, some sampleRegs⟩

/-- Tracee whose registers cannot currently be read. -/
def sampleNoRegs : DbgState := ⟨memRW 0x1122334455667755, none, none⟩

/-- Tracee whose memory is readable but rejects writes. -/
def sampleRO : DbgState := ⟨memRO 0x1122334455667755, none, none⟩

/-- Tracee stopped on a trap at `0x1000` (= 4096): the table records original
byte `0x55` for that address and the low byte in memory is the trap opcode. -/
def sampleTrapped : DbgState :=
  ⟨memRW 0x11223344556677cc, some [(4096, 0x55)], some sampleRegs⟩

/-- The state after `handle_breakpoint sampleTrapped 4096`. -/
def sampleTrapped1 : DbgState :=
  ((handle_breakpoint sampleTrapped 4096).getD (sampleTrapped, .unknown 0)).1

/-- Environment where every ptrace request succeeds and no wait event is
pending. -/
def osAll : Os := ⟨true, true, true, []⟩

/-- Environment where `ptrace::cont` is rejected by the kernel. -/
def osContFail : Os := ⟨false, true, true, []⟩

/-- Environment for a continue during which the tracee exits: one non-trap
wait status (the `Exited` report, which also reaps the child), then `ECHILD`. -/
def osEchild : Os := ⟨true, true, true, [.okOther, .errEchild]⟩

/-- Environment with a pending trap stop whose reported `rip` is `0x401001`. -/
def osTrap : Os := ⟨true, true, true, [.okTrap 0x401001]⟩

/-! Helper lemmas. -/

theorem wordMod_eq : wordMod = 18446744073709551616 := by norm_num [wordMod]

theorem bpLookup_bpInsert (l : List (Nat × Nat)) (a v : Nat) :
    bpLookup (bpInsert l a v) a = some v := by
  induction l with
  | nil => simp [bpLookup, bpInsert]
  | cons kv rest ih =>
    obtain ⟨k, w⟩ := kv
    by_cases hk : k = a
    · subst hk
      simp [bpLookup, bpInsert]
    · simp [bpLookup, bpInsert, hk, ih]

theorem set_breakpoint_read_fail (s : DbgState) (a : Nat)
    (h : s.mem.readable a = false) : set_breakpoint s a = (s, false) := by
  simp [set_breakpoint, ptraceRead, h]

theorem set_breakpoint_write_fail (s : DbgState) (a : Nat)
    (hr : s.mem.readable a = true) (hw : s.mem.writable a = false) :
    (set_breakpoint s a).2 = false ∧
      (set_breakpoint s a).1.breakpoints =
        some (bpInsert (s.breakpoints.getD []) a (s.mem.val a % wordMod % 256)) ∧
      (set_breakpoint s a).1.mem = s.mem := by
  cases hbp : s.breakpoints with
  | none => simp [set_breakpoint, ptraceRead, ptraceWrite, hr, hw, hbp, bpInsert]
  | some bps => simp [set_breakpoint, ptraceRead, ptraceWrite, hr, hw, hbp]

theorem wordMod_pos : 0 < wordMod := by rw [wordMod_eq]; omega

theorem patchTrap_lt (w : Nat) (h : w < wordMod) : patchTrap w < wordMod := by
  unfold patchTrap
  rw [wordMod_eq] at h ⊢
  omega

theorem patchTrap_mod256 (w : Nat) : patchTrap w % 256 = 0xcc := by
  unfold patchTrap
  omega

theorem patchTrap_div256 (w : Nat) : patchTrap w / 256 = w / 256 := by
  unfold patchTrap
  omega

theorem restoreLow_lt (w b : Nat) (h : w < wordMod) : restoreLow w b < wordMod := by
  unfold restoreLow
  rw [wordMod_eq] at h ⊢
  omega

theorem restoreLow_mod256 (w b : Nat) : restoreLow w b % 256 = b % 256 := by
  unfold restoreLow
  omega

theorem restoreLow_div256 (w b : Nat) : restoreLow w b / 256 = w / 256 := by
  unfold restoreLow
  omega

theorem set_breakpoint_success (s : DbgState) (a : Nat)
    (hr : s.mem.readable a = true) (hw : s.mem.writable a = true) :
    set_breakpoint s a =
      (⟨⟨fun x => if x = a then patchTrap (s.mem.val a % wordMod) % wordMod
            else s.mem.val x, s.mem.readable, s.mem.writable⟩,
        some (bpInsert (s.breakpoints.getD []) a (s.mem.val a % wordMod % 256)),
        s.regs⟩, true) := by
  cases hbp : s.breakpoints with
  | none => simp [set_breakpoint, ptraceRead, ptraceWrite, hr, hw, hbp, bpInsert]
  | some bps => simp [set_breakpoint, ptraceRead, ptraceWrite, hr, hw, hbp]

theorem handle_breakpoint_hit (s : DbgState) (a b : Nat) (bps : List (Nat × Nat))
    (hbp : s.breakpoints = some bps) (hl : bpLookup bps a = some b)
    (hr : s.mem.readable a = true) (hw : s.mem.writable a = true) :
    handle_breakpoint s a =
      some (⟨⟨fun x => if x = a then restoreLow (s.mem.val a % wordMod) b % wordMod
          else s.mem.val x, s.mem.readable, s.mem.writable⟩,
        s.breakpoints, s.regs⟩, .hit a) := by
  simp [handle_breakpoint, ptraceRead, ptraceWrite, hbp, hl, hr, hw]

theorem handle_breakpoint_cases (s : DbgState) (a : Nat) :
    handle_breakpoint s a = some (s, .unknown a) ∨
      (∃ b, handle_breakpoint s a =
        some (⟨⟨fun x => if x = a then restoreLow (s.mem.val a % wordMod) b % wordMod
            else s.mem.val x, s.mem.readable, s.mem.writable⟩,
          s.breakpoints, s.regs⟩, .hit a)) ∨
      handle_breakpoint s a = none := by
  cases hbp : s.breakpoints with
  | none => exact Or.inl (by simp [handle_breakpoint, hbp])
  | some bps =>
    cases hl : bpLookup bps a with
    | none => exact Or.inl (by simp [handle_breakpoint, hbp, hl])
    | some b =>
      cases hr : s.mem.readable a with
      | false =>
        exact Or.inr (Or.inr (by simp [handle_breakpoint, ptraceRead, hbp, hl, hr]))
      | true =>
        cases hw : s.mem.writable a with
        | false =>
          exact Or.inr (Or.inr
            (by simp [handle_breakpoint, ptraceRead, ptraceWrite, hbp, hl, hr, hw]))
        | true =>
          refine Or.inr (Or.inl ⟨b, ?_⟩)
          rw [handle_breakpoint_hit s a b bps hbp hl hr hw, hbp]

theorem prettier_preserves_regs (s : DbgState) (evs : List WaitEvent) :
    (prettier s evs).state.regs = s.regs := by
  induction evs with
  | nil => rfl
  | cons e rest ih =>
    cases e with
    | okTrap rip =>
      simp only [prettier]
      rcases handle_breakpoint_cases s (sub1 rip) with hc | ⟨b, hc⟩ | hc <;> rw [hc]
    | okOther => exact ih
    | errEchild => rfl
    | errOther => rfl

theorem sub1_eq (rip : Nat) (h1 : 1 ≤ rip) (h2 : rip < wordMod) :
    sub1 rip = rip - 1 := by
  unfold sub1
  rw [wordMod_eq] at h2 ⊢
  omega

theorem prettier_echild (s : DbgState) (n : Nat) (rest : List WaitEvent) :
    prettier s (List.replicate n .okOther ++ .errEchild :: rest) =
      ⟨s, .exitedZero, n + 1⟩ := by
  induction n with
  | zero => rfl
  | succ k ih =>
    simp only [List.replicate, List.cons_append, prettier, List.append_eq, ih]

theorem run_command_c_ok (so syo : Bool) (evs : List WaitEvent) (s : DbgState) :
    run_command "c" ⟨true, so, syo, evs⟩ s =
      ⟨(prettier s evs).state,
        .continuing :: prettierMsgs (prettier s evs).result,
        prettierOutcome (prettier s evs).result, (prettier s evs).waits⟩ := rfl

theorem memory_command_malformed (args : List String) (s : DbgState)
    (hbad : args.length ≠ 2 ∨ startsWith0x (args.getD 1 "") = false ∨
      from_str_radix16 (drop2 (args.getD 1 "")) = none) :
    memory_command args s = ⟨s, [.usageMemory], .ok, 0⟩ ∨
      memory_command args s = ⟨s, [.addrNeeds0x], .ok, 0⟩ ∨
      memory_command args s = ⟨s, [.invalidAddress], .ok, 0⟩ := by
  simp only [List.getD_eq_getElem?_getD] at hbad
  rcases hbad with h | h | h
  · exact Or.inl (by simp [memory_command, h])
  · by_cases h2 : args.length ≠ 2
    · exact Or.inl (by simp [memory_command, h2])
    · exact Or.inr (Or.inl (by simp [memory_command, h2, h]))
  · by_cases h2 : args.length ≠ 2
    · exact Or.inl (by simp [memory_command, h2])
    · cases h0 : startsWith0x (args[1]?.getD "") with
      | false => exact Or.inr (Or.inl (by simp [memory_command, h2, h0]))
      | true => exact Or.inr (Or.inr (by simp [memory_command, h2, h0, h]))

theorem breakpoint_command_malformed (args : List String) (s : DbgState)
    (hbad : args.length ≠ 2 ∨ startsWith0x (args.getD 1 "") = false ∨
      from_str_radix16 (drop2 (args.getD 1 "")) = none) :
    breakpoint_command args s = ⟨s, [.usageBreakpoint], .ok, 0⟩ ∨
      breakpoint_command args s = ⟨s, [.addrNeeds0x], .ok, 0⟩ ∨
      breakpoint_command args s = ⟨s, [.invalidAddress], .ok, 0⟩ := by
  simp only [List.getD_eq_getElem?_getD] at hbad
  rcases hbad with h | h | h
  · exact Or.inl (by simp [breakpoint_command, h])
  · by_cases h2 : args.length ≠ 2
    · exact Or.inl (by simp [breakpoint_command, h2])
    · exact Or.inr (Or.inl (by simp [breakpoint_command, h2, h]))
  · by_cases h2 : args.length ≠ 2
    · exact Or.inl (by simp [breakpoint_command, h2])
    · cases h0 : startsWith0x (args[1]?.getD "") with
      | false => exact Or.inr (Or.inl (by simp [breakpoint_command, h2, h0]))
      | true => exact Or.inr (Or.inr (by simp [breakpoint_command, h2, h0, h]))

/-- C1, counterexample: in a state whose table holds original byte `0x55` for
address `0x1000`, a trap at `0x1000` is reported as a hit, but the entry is
NOT removed from the Breakpoint Table, and a second trap at the same address
without reinstalling is again reported as a hit — not as an unknown trap as
the claim requires. -/
theorem C1_counterexample :
    (handle_breakpoint sampleTrapped 4096).map Prod.snd = some (.hit 4096) ∧
      sampleTrapped1.breakpoints = some [(4096, 0x55)] ∧
      (handle_breakpoint sampleTrapped1 4096).map Prod.snd = some (.hit 4096) :=
  ⟨rfl, rfl, rfl⟩

/-- C1, amended: when the tracee traps at an address `a` with a table entry
`(a, b)`, the engine reports `Hit(a)` and restores the byte at `a` to the
recorded value `b` (preserving the rest of the word), but the entry stays in
the Breakpoint Table, so a second trap at `a` without reinstalling is again
reported as a hit rather than as an unknown trap. -/
theorem C1_hit_behavior (s : DbgState) (a b : Nat) (bps : List (Nat × Nat))
    (hbp : s.breakpoints = some bps) (hl : bpLookup bps a = some b)
    (hb : b < 256) (hr : s.mem.readable a = true)
    (hw : s.mem.writable a = true) :
    ∃ s2, handle_breakpoint s a = some (s2, .hit a) ∧
      s2.mem.val a % 256 = b ∧
      s2.mem.val a / 256 = s.mem.val a % wordMod / 256 ∧
      s2.breakpoints = s.breakpoints ∧
      (handle_breakpoint s2 a).map Prod.snd = some (.hit a) := by
  have hlt : s.mem.val a % wordMod < wordMod := Nat.mod_lt _ wordMod_pos
  have hres : restoreLow (s.mem.val a % wordMod) b % wordMod
      = restoreLow (s.mem.val a % wordMod) b :=
    Nat.mod_eq_of_lt (restoreLow_lt _ _ hlt)
  refine ⟨_, handle_breakpoint_hit s a b bps hbp hl hr hw, ?_, ?_, rfl, ?_⟩
  · dsimp only
    simp [hres, restoreLow_mod256, Nat.mod_eq_of_lt hb]
  · dsimp only
    simp [hres, restoreLow_div256]
  · rw [handle_breakpoint_hit
      ⟨⟨fun x => if x = a then restoreLow (s.mem.val a % wordMod) b % wordMod
          else s.mem.val x, s.mem.readable, s.mem.writable⟩,
        s.breakpoints, s.regs⟩ a b bps hbp hl hr hw]
    rfl

/-- C1, witness for the amended theorem, at `sampleTrapped` and `0x1000`. -/
theorem C1_hit_behavior_witness :
    ∃ s2, handle_breakpoint sampleTrapped 4096 = some (s2, .hit 4096) ∧
      s2.mem.val 4096 % 256 = 0x55 ∧
      s2.mem.val 4096 / 256 = sampleTrapped.mem.val 4096 % wordMod / 256 ∧
      s2.breakpoints = sampleTrapped.breakpoints ∧
      (handle_breakpoint s2 4096).map Prod.snd = some (.hit 4096) :=
  C1_hit_behavior sampleTrapped 4096 0x55 [(4096, 0x55)] rfl rfl
    (by norm_num) rfl rfl

/-- C9: resolving a stop through `handle_breakpoint` never touches the
tracee's registers or the Breakpoint Table and changes no memory word other
than the one at the looked-up address; in particular the wait loop `prettier`
leaves the register file — including the instruction pointer still at `A + 1`
— exactly as the tracee reported it. -/
theorem C9_hit_leaves_registers (s : DbgState) (a : Nat) (s2 : DbgState)
    (r : Report) (h : handle_breakpoint s a = some (s2, r)) :
    s2.regs = s.regs ∧ s2.breakpoints = s.breakpoints ∧
      (∀ x, x ≠ a → s2.mem.val x = s.mem.val x) ∧
      (∀ evs, (prettier s evs).state.regs = s.regs) := by
  rcases handle_breakpoint_cases s a with hc | ⟨b, hc⟩ | hc <;> rw [hc] at h
  · cases h
    exact ⟨rfl, rfl, fun x _ => rfl, fun evs => prettier_preserves_regs s evs⟩
  · rw [Option.some.injEq, Prod.mk.injEq] at h
    obtain ⟨h1, h2⟩ := h
    subst h1
    refine ⟨rfl, rfl, fun x hx => ?_, fun evs => prettier_preserves_regs s evs⟩
    dsimp only
    rw [if_neg hx]
  · cases h

/-- C9, witness at the trap state `sampleTrapped`. -/
theorem C9_hit_leaves_registers_witness :
    sampleTrapped1.regs = sampleTrapped.regs ∧
      sampleTrapped1.breakpoints = sampleTrapped.breakpoints ∧
      (∀ x, x ≠ 4096 → sampleTrapped1.mem.val x = sampleTrapped.mem.val x) ∧
      (∀ evs, (prettier sampleTrapped evs).state.regs = sampleTrapped.regs) :=
  C9_hit_leaves_registers sampleTrapped 4096 sampleTrapped1 (.hit 4096) rfl

/-- C2, counterexample: with address `0x1000` readable but not writable,
`set_breakpoint` fails (returns `Err`) yet the Breakpoint Table is NOT left
unchanged — the entry was inserted before the trap write was attempted, and it
stays after the write fails. -/
theorem C2_counterexample :
    (set_breakpoint sampleRO 4096).2 = false ∧
      sampleRO.breakpoints = none ∧
      (set_breakpoint sampleRO 4096).1.breakpoints = some [(4096, 0x55)] :=
  ⟨rfl, rfl, rfl⟩

/-- C2, amended: `set_breakpoint` records the original byte in the table
before issuing the trap write — so when the initial read fails the table (and
everything else) is untouched, but when the trap write fails the freshly
inserted entry remains in the table even though the call reports failure. -/
theorem C2_install_table_ordering (s : DbgState) (a : Nat) :
    (s.mem.readable a = false → set_breakpoint s a = (s, false)) ∧
      (s.mem.readable a = true → s.mem.writable a = false →
        (set_breakpoint s a).2 = false ∧
          (set_breakpoint s a).1.mem = s.mem ∧
          (set_breakpoint s a).1.breakpoints =
            some (bpInsert (s.breakpoints.getD []) a
              (s.mem.val a % wordMod % 256))) := by
  refine ⟨set_breakpoint_read_fail s a, fun hr hw => ?_⟩
  obtain ⟨h1, h2, h3⟩ := set_breakpoint_write_fail s a hr hw
  exact ⟨h1, h3, h2⟩

/-- C2, witness for the amended theorem: a state with unreadable memory for
the first conjunct, the readable-but-unwritable `sampleRO` for the second. -/
theorem C2_install_table_ordering_witness :
    set_breakpoint ⟨⟨fun _ => 0, fun _ => false, fun _ => false⟩, none, none⟩
        4096 = (⟨⟨fun _ => 0, fun _ => false, fun _ => false⟩, none, none⟩, false) ∧
      ((set_breakpoint sampleRO 4096).2 = false ∧
        (set_breakpoint sampleRO 4096).1.mem = sampleRO.mem ∧
        (set_breakpoint sampleRO 4096).1.breakpoints =
          some (bpInsert (sampleRO.breakpoints.getD []) 4096
            (sampleRO.mem.val 4096 % wordMod % 256))) :=
  ⟨(C2_install_table_ordering _ 4096).1 rfl,
    (C2_install_table_ordering sampleRO 4096).2 rfl rfl⟩

/-- C3: whenever `set_breakpoint` succeeds at `a`, the byte now stored at `a`
is the trap opcode `0xcc`, the other seven bytes of the addressed word (and
all other addresses) are unchanged, and the table records exactly the byte
that stood at `a` before the installation. -/
theorem C3_install_patches_trap (s : DbgState) (a : Nat)
    (h : (set_breakpoint s a).2 = true) :
    (set_breakpoint s a).1.mem.val a % 256 = 0xcc ∧
      (set_breakpoint s a).1.mem.val a / 256 = s.mem.val a % wordMod / 256 ∧
      (∀ x, x ≠ a → (set_breakpoint s a).1.mem.val x = s.mem.val x) ∧
      bpLookup ((set_breakpoint s a).1.breakpoints.getD []) a =
        some (s.mem.val a % wordMod % 256) := by
  by_cases hr : s.mem.readable a = true
  · by_cases hw : s.mem.writable a = true
    · have hlt : s.mem.val a % wordMod < wordMod := Nat.mod_lt _ wordMod_pos
      have hp : patchTrap (s.mem.val a % wordMod) % wordMod
          = patchTrap (s.mem.val a % wordMod) :=
        Nat.mod_eq_of_lt (patchTrap_lt _ hlt)
      rw [set_breakpoint_success s a hr hw]
      refine ⟨?_, ?_, ?_, ?_⟩
      · simp [hp, patchTrap_mod256]
      · simp [hp, patchTrap_div256]
      · intro x hx
        simp [hx]
      · simp [bpLookup_bpInsert]
    · have := (set_breakpoint_write_fail s a hr (by simpa using hw)).1
      rw [this] at h
      cases h
  · have := set_breakpoint_read_fail s a (by simpa using hr)
    rw [this] at h
    cases h

/-- C3, witness: installing at `0x1000` in `sampleState` succeeds and has the
claimed effect on memory and table. -/
theorem C3_install_patches_trap_witness :
    (set_breakpoint sampleState 4096).1.mem.val 4096 % 256 = 0xcc ∧
      (set_breakpoint sampleState 4096).1.mem.val 4096 / 256 =
        sampleState.mem.val 4096 % wordMod / 256 ∧
      (∀ x, x ≠ 4096 → (set_breakpoint sampleState 4096).1.mem.val x =
        sampleState.mem.val x) ∧
      bpLookup ((set_breakpoint sampleState 4096).1.breakpoints.getD []) 4096 =
        some (sampleState.mem.val 4096 % wordMod % 256) :=
  C3_install_patches_trap sampleState 4096 rfl

/-- C10: installing a second breakpoint at an address that already carries one
succeeds and silently replaces the recorded original byte with the byte now in
memory — the trap opcode `0xcc` written by the first installation — so the
true pre-breakpoint byte is lost from the table. -/
theorem C10_reinstall_records_trap (s : DbgState) (a : Nat)
    (hr : s.mem.readable a = true) (hw : s.mem.writable a = true) :
    (set_breakpoint s a).2 = true ∧
      (set_breakpoint (set_breakpoint s a).1 a).2 = true ∧
      bpLookup ((set_breakpoint (set_breakpoint s a).1 a).1.breakpoints.getD [])
        a = some 0xcc := by
  have hlt : s.mem.val a % wordMod < wordMod := Nat.mod_lt _ wordMod_pos
  have hp : patchTrap (s.mem.val a % wordMod) % wordMod
      = patchTrap (s.mem.val a % wordMod) :=
    Nat.mod_eq_of_lt (patchTrap_lt _ hlt)
  rw [set_breakpoint_success s a hr hw]
  dsimp only
  rw [set_breakpoint_success
    ⟨⟨fun x => if x = a then patchTrap (s.mem.val a % wordMod) % wordMod
        else s.mem.val x, s.mem.readable, s.mem.writable⟩,
      some (bpInsert (s.breakpoints.getD []) a (s.mem.val a % wordMod % 256)),
      s.regs⟩ a hr hw]
  dsimp only
  refine ⟨rfl, rfl, ?_⟩
  simp [bpLookup_bpInsert, hp, patchTrap_mod256]

/-- C10, witness: reinstalling at `0x1000` in `sampleState` records `0xcc`. -/
theorem C10_reinstall_records_trap_witness :
    (set_breakpoint sampleState 4096).2 = true ∧
      (set_breakpoint (set_breakpoint sampleState 4096).1 4096).2 = true ∧
      bpLookup
        ((set_breakpoint (set_breakpoint sampleState 4096).1
          4096).1.breakpoints.getD []) 4096 = some 0xcc :=
  C10_reinstall_records_trap sampleState 4096 rfl rfl

/-- C4: when the wait loop observes a trap-class stop whose reported
instruction pointer is `rip`, breakpoint lookup and restoration are performed
by `handle_breakpoint` at key `rip - 1`, one byte before the reported
instruction pointer, and the loop then breaks. -/
theorem C4_lookup_one_before_rip (s : DbgState) (rip : Nat)
    (evs : List WaitEvent) (h1 : 1 ≤ rip) (h2 : rip < wordMod) :
    prettier s (.okTrap rip :: evs) =
      match handle_breakpoint s (rip - 1) with
      | none => ⟨s, .panicked, 1⟩
      | some (s2, r) => ⟨s2, .trapHandled r, 1⟩ := by
  simp only [prettier, sub1_eq rip h1 h2]

/-- C4, witness: a trap reported at `rip = 0x1001` resolves at `0x1000`. -/
theorem C4_lookup_one_before_rip_witness :
    prettier sampleTrapped [.okTrap 4097] =
      match handle_breakpoint sampleTrapped (4097 - 1) with
      | none => ⟨sampleTrapped, .panicked, 1⟩
      | some (s2, r) => ⟨s2, .trapHandled r, 1⟩ :=
  C4_lookup_one_before_rip sampleTrapped 4097 [] (by norm_num)
    (by rw [wordMod_eq]; norm_num)

/-- C5: the continue command never panics when the tracee is gone. If the
resume request itself is rejected, a failure line is printed and the session
state is untouched; if the resume succeeds and the wait loop, after any number
of non-trap statuses (e.g. the `Exited` report that reaps the child), gets
`ECHILD` from `waitpid`, the debugger prints the termination notice and exits
the whole process with status 0. -/
theorem C5_continue_after_exit (s : DbgState) (os : Os) (n : Nat)
    (rest : List WaitEvent) :
    (os.contOk = false →
      run_command "c" os s = ⟨s, [.continuing, .contFailed], .ok, 0⟩) ∧
      (os.contOk = true →
        os.events = List.replicate n .okOther ++ .errEchild :: rest →
        run_command "c" os s =
          ⟨s, [.continuing, .childTerminated], .exit0, n + 1⟩) := by
  obtain ⟨co, so, syo, evs⟩ := os
  constructor
  · intro h
    dsimp only at h
    subst h
    rfl
  · intro h he
    dsimp only at h he
    subst h
    subst he
    rw [run_command_c_ok, prettier_echild]
    rfl

/-- C5, witness: a rejected resume on `osContFail`, and a continue on
`osEchild` (one non-trap status, then `ECHILD`) which exits with status 0. -/
theorem C5_continue_after_exit_witness :
    run_command "c" osContFail sampleState =
        ⟨sampleState, [.continuing, .contFailed], .ok, 0⟩ ∧
      run_command "c" osEchild sampleState =
        ⟨sampleState, [.continuing, .childTerminated], .exit0, 2⟩ :=
  ⟨(C5_continue_after_exit sampleState osContFail 1 []).1 rfl,
    (C5_continue_after_exit sampleState osEchild 1 []).2 rfl rfl⟩

/-- C6, counterexample: issuing the registers command while the tracee's
registers cannot be read makes `show_registers`'s `.expect` panic, aborting
the debugger — the failure is not rendered as a non-fatal error line. -/
theorem C6_counterexample :
    (run_command "r" osAll sampleNoRegs).outcome = .panicked ∧
      (run_command "r" osAll sampleNoRegs).msgs = [.showingRegs] :=
  ⟨rfl, rfl⟩

/-- C6, amended: when `ptrace::getregs` fails (tracee not in a readable
state), the registers command panics via `.expect` and aborts the debugger
process instead of reporting a non-fatal error; when it succeeds, the dump is
printed and the session continues. -/
theorem C6_registers_behavior (s : DbgState) (os : Os) :
    (s.regs = none →
      run_command "r" os s = ⟨s, [.showingRegs], .panicked, 0⟩) ∧
      (∀ r, s.regs = some r →
        run_command "r" os s =
          ⟨s, [.showingRegs, .registersDump r], .ok, 0⟩) := by
  obtain ⟨mem, bps, regs⟩ := s
  constructor
  · intro h
    dsimp only at h
    subst h
    rfl
  · intro r h
    dsimp only at h
    subst h
    rfl

/-- C6, witness: panic on `sampleNoRegs`, dump on `sampleState`. -/
theorem C6_registers_behavior_witness :
    run_command "r" osAll sampleNoRegs =
        ⟨sampleNoRegs, [.showingRegs], .panicked, 0⟩ ∧
      run_command "r" osAll sampleState =
        ⟨sampleState, [.showingRegs, .registersDump sampleRegs], .ok, 0⟩ :=
  ⟨(C6_registers_behavior sampleNoRegs osAll).1 rfl,
    (C6_registers_behavior sampleState osAll).2 sampleRegs rfl⟩

/-- C7, counterexample: with a trap stop pending in the event stream and a
step request the kernel accepts, the next command still issues no `waitpid`
at all (`waits = 0`) and returns to the REPL at once — it does not block until
the tracee reports a new state. -/
theorem C7_counterexample :
    run_command "n" osTrap sampleTrapped =
        ⟨sampleTrapped, [.takingStep], .ok, 0⟩ ∧
      (run_command "n" osTrap sampleTrapped).waits = 0 :=
  ⟨rfl, rfl⟩

/-- C7, amended: the next command issues the single-step request and returns
immediately — it performs no wait (`waits = 0`), no breakpoint resolution, and
leaves the session state unchanged; only the step announcement (plus a failure
line when the request is rejected) is printed. -/
theorem C7_next_no_wait (s : DbgState) (os : Os) :
    run_command "n" os s =
      ⟨s, if os.stepOk then [.takingStep] else [.takingStep, .stepFailed],
        .ok, 0⟩ := by
  obtain ⟨co, so, syo, evs⟩ := os
  cases so <;> rfl

/-- C8, counterexample: the argument `0x+10` contains a non-hex-digit
character after the `0x` prefix, yet `u64::from_str_radix` accepts the `+`
sign, so `b 0x+10` silently installs a breakpoint at `0x10` — the Breakpoint
Table is mutated and no usage/error message is printed. -/
theorem C8_counterexample :
    sampleState.breakpoints = none ∧
      (run_command "b 0x+10" osAll sampleState).state.breakpoints =
        some [(16, 0x55)] ∧
      (run_command "b 0x+10" osAll sampleState).msgs = [] :=
  ⟨rfl, rfl, rfl⟩

/-- C8, amended: a memory or breakpoint command whose argument list has the
wrong length, whose address argument lacks the `0x` prefix, or whose
post-prefix text is rejected by `u64::from_str_radix(_, 16)` (no digits, a
non-hex digit other than a leading `+`, or overflow past 64 bits) prints a
usage/error message, leaves the state unchanged, and returns normally. -/
theorem C8_malformed_address (cmd t : String) (restArgs : List String)
    (os : Os) (s : DbgState)
    (hargs : split_whitespace cmd = t :: restArgs)
    (ht : t = "m" ∨ t = "memory" ∨ t = "b" ∨ t = "breakpoint")
    (hbad : (t :: restArgs).length ≠ 2 ∨
      startsWith0x ((t :: restArgs).getD 1 "") = false ∨
      from_str_radix16 (drop2 ((t :: restArgs).getD 1 "")) = none) :
    (run_command cmd os s).state = s ∧
      (run_command cmd os s).outcome = .ok ∧
      (run_command cmd os s).msgs ∈
        [[Msg.usageMemory], [Msg.usageBreakpoint], [Msg.addrNeeds0x],
          [Msg.invalidAddress]] := by
  have hrc : run_command cmd os s = dispatch (t :: restArgs) cmd os s := by
    rw [run_command, hargs]
  rcases ht with h | h | h | h <;> subst h
  · have hd : dispatch ("m" :: restArgs) cmd os s
        = memory_command ("m" :: restArgs) s := rfl
    rw [hrc, hd]
    rcases memory_command_malformed ("m" :: restArgs) s hbad with h | h | h <;>
      simp [h]
  · have hd : dispatch ("memory" :: restArgs) cmd os s
        = memory_command ("memory" :: restArgs) s := rfl
    rw [hrc, hd]
    rcases memory_command_malformed ("memory" :: restArgs) s hbad
      with h | h | h <;> simp [h]
  · have hd : dispatch ("b" :: restArgs) cmd os s
        = breakpoint_command ("b" :: restArgs) s := rfl
    rw [hrc, hd]
    rcases breakpoint_command_malformed ("b" :: restArgs) s hbad
      with h | h | h <;> simp [h]
  · have hd : dispatch ("breakpoint" :: restArgs) cmd os s
        = breakpoint_command ("breakpoint" :: restArgs) s := rfl
    rw [hrc, hd]
    rcases breakpoint_command_malformed ("breakpoint" :: restArgs) s hbad
      with h | h | h <;> simp [h]

/-- C8, witness: `m 123` (missing `0x` prefix) prints an error and leaves the
state unchanged. -/
theorem C8_malformed_address_witness :
    (run_command "m 123" osAll sampleState).state = sampleState ∧
      (run_command "m 123" osAll sampleState).outcome = .ok ∧
      (run_command "m 123" osAll sampleState).msgs ∈
        [[Msg.usageMemory], [Msg.usageBreakpoint], [Msg.addrNeeds0x],
          [Msg.invalidAddress]] :=
  C8_malformed_address "m 123" "m" ["123"] osAll sampleState rfl
    (Or.inl rfl) (Or.inr (Or.inl rfl))

end RustDbg
